import Mathlib

/-!
Verification of the environment-configuration resolution and validation
mechanism of the repository (scripts/check-env.js and next.config.ts).

The environment is modelled as an immutable mapping from variable names to
string values or absence, exactly as the process environment appears to the
scripts.  JavaScript truthiness of `process.env[name]` (defined and
non-empty) is modelled by `truthy`.
-/

/-- An environment mapping: variable name to string value, or absent. -/
def EnvMap : Type := String → Option String

/-- JS truthiness of `process.env[varName]`: the variable is present and its
value is a non-empty string. Embeds the condition `if (process.env[varName])`
in check-env.js. -/
def truthy (env : EnvMap) (varName : String) : Bool :=
  match env varName with
  | some s => s ≠ ""
  | none => false

/-- The required variable list from check-env.js (lines 2-9), in source order. -/
def requiredEnvVars : List String :=
  [ "NODE_ENV",
    "NEXT_PUBLIC_APP_ENV",
    "NEXT_PUBLIC_API_URL",
    "DATABASE_URL",
    "NEXTAUTH_SECRET",
    "NEXTAUTH_URL" ]

/-- The optional variable list from check-env.js (lines 11-16), in source order. -/
def optionalEnvVars : List String :=
  [ "NEXT_PUBLIC_STRIPE_PUBLIC_KEY",
    "STRIPE_SECRET_KEY",
    "AWS_REGION",
    "LOG_LEVEL" ]

/-- Per-variable status printed by check-env.js: `SET`, `MISSING` (required,
absent) or `NOT SET` (optional, absent). -/
inductive Status where
  | SET : Status
  | MISSING : Status
  | NOT_SET : Status
deriving DecidableEq, Repr

/-- One iteration of `requiredEnvVars.forEach` (check-env.js lines 24-31):
append the variable's status line to the report, and set the `hasErrors`
flag when the variable is missing. The accumulator is the pair
(report so far, hasErrors). -/
def requiredStep (env : EnvMap) (acc : List (String × Status) × Bool)
    (varName : String) : List (String × Status) × Bool :=
  if truthy env varName then
    (acc.1 ++ [(varName, Status.SET)], acc.2)
  else
    (acc.1 ++ [(varName, Status.MISSING)], true)

/-- One iteration of `optionalEnvVars.forEach` (check-env.js lines 34-40):
append the variable's status line; `hasErrors` is never touched. -/
def optionalStep (env : EnvMap) (acc : List (String × Status) × Bool)
    (varName : String) : List (String × Status) × Bool :=
  if truthy env varName then
    (acc.1 ++ [(varName, Status.SET)], acc.2)
  else
    (acc.1 ++ [(varName, Status.NOT_SET)], acc.2)

/-- The whole run of check-env.js over the two `forEach` loops: starting from
an empty report and `hasErrors = false` (line 20), first the required loop,
then the optional loop.  Returns (report, hasErrors). -/
def checkEnvRun (env : EnvMap) : List (String × Status) × Bool :=
  optionalEnvVars.foldl (optionalStep env)
    (requiredEnvVars.foldl (requiredStep env) ([], false))

/-- The spec's `validate` contract: `allOk` and the ordered status report.
`allOk` is the negation of the script's `hasErrors` flag. -/
structure ValidateResult where
  allOk : Bool
  report : List (String × Status)
deriving DecidableEq, Repr

/-- `validate(env)` as specified, derived from the embedded run of
check-env.js. -/
def validate (env : EnvMap) : ValidateResult :=
  let r := checkEnvRun env
  { allOk := !r.2, report := r.1 }

/-- The process boundary of check-env.js (lines 46-52): exit code 1 when
`hasErrors`, else 0. -/
def scriptExitCode (env : EnvMap) : Nat :=
  if (checkEnvRun env).2 then 1 else 0

/-- The spec's output-mode enumeration: `standalone` for the production
build, `standard` otherwise (the source leaves `output` undefined in the
non-production branch, which the build tool treats as the standard output). -/
inductive OutputMode where
  | standard : OutputMode
  | standalone : OutputMode
deriving DecidableEq, Repr

/-- One route-level header rule from the `headers()` function of
next.config.ts: a route source pattern together with the header pairs
attached to it. -/
structure HeaderRule where
  source : String
  headers : List (String × String)
deriving DecidableEq, Repr

/-- The resolved configuration object built by next.config.ts.  `appEnv`
models the `env.APP_ENV` field, `output` the `output` field (absent in the
non-production branch), `imageDomains` the `images.domains` array, and
`headerRules` the value returned by the `headers()` function. -/
structure ResolvedConfiguration where
  appEnv : String
  reactStrictMode : Bool
  output : Option String
  imageDomains : List String
  headerRules : List HeaderRule
deriving DecidableEq, Repr

/-- `resolve(discriminator)`: the `nextConfig` object of next.config.ts as a
function of `process.env.NEXT_PUBLIC_APP_ENV` (the discriminator, a string
or absent). Each field is translated from the source:
* `env.APP_ENV = process.env.NEXT_PUBLIC_APP_ENV || 'development'` (line 60);
* `reactStrictMode: true` (line 64);
* `output: ... === 'production' ? 'standalone' : undefined` (line 67);
* `images.domains` (lines 70-74);
* `headers()` (lines 77-104). -/
def resolve (discriminator : Option String) : ResolvedConfiguration :=
  { appEnv :=
      match discriminator with
      | some s => if s = "" then "development" else s
      | none => "development"
    reactStrictMode := true
    output :=
      if discriminator = some "production" then some "standalone" else none
    imageDomains :=
      if discriminator = some "production" then
        ["yourapp.com", "cdn.yourapp.com"]
      else
        ["localhost"]
    headerRules :=
      if discriminator = some "production" then
        [ { source := "/:path*",
            headers :=
              [ ("X-DNS-Prefetch-Control", "on"),
                ("Strict-Transport-Security",
                  "max-age=63072000; includeSubDomains; preload"),
                ("X-Content-Type-Options", "nosniff"),
                ("X-Frame-Options", "DENY") ] } ]
      else
        [] }

/-- The spec's `outputMode` view of the resolved configuration: `standalone`
when the source set `output: 'standalone'`, `standard` when the source left
it undefined. -/
def ResolvedConfiguration.outputMode (c : ResolvedConfiguration) : OutputMode :=
  match c.output with
  | some "standalone" => OutputMode.standalone
  | _ => OutputMode.standard

/-- The spec's `securityHeaders` view: the header pairs attached to all
routes, i.e. the concatenation of the pairs of every header rule. -/
def ResolvedConfiguration.securityHeaders (c : ResolvedConfiguration) :
    List (String × String) :=
  (c.headerRules.map HeaderRule.headers).flatten

/-! ## Helper lemmas -/

/-- `truthy` unfolded: the variable maps to some non-empty string. -/
theorem truthy_iff (env : EnvMap) (n : String) :
    truthy env n = true ↔ ∃ s, env n = some s ∧ s ≠ "" := by
  unfold truthy
  cases h : env n with
  | none => simp
  | some s => simp

/-- Closed form of the required-variables loop: the fold appends one status
entry per name in order, and the flag becomes true exactly when some name in
the list is not truthy. -/
theorem requiredStep_foldl (env : EnvMap) (l : List String)
    (acc : List (String × Status) × Bool) :
    l.foldl (requiredStep env) acc =
      (acc.1 ++ l.map (fun n =>
          (n, if truthy env n then Status.SET else Status.MISSING)),
        acc.2 || l.any (fun n => !truthy env n)) := by
  induction l generalizing acc with
  | nil => simp
  | cons hd tl ih =>
    rw [List.foldl_cons, ih]
    by_cases hc : truthy env hd
    · simp [requiredStep, hc]
    · simp [requiredStep, hc]

/-- Closed form of the optional-variables loop: one status entry per name in
order, and the flag is passed through unchanged. -/
theorem optionalStep_foldl (env : EnvMap) (l : List String)
    (acc : List (String × Status) × Bool) :
    l.foldl (optionalStep env) acc =
      (acc.1 ++ l.map (fun n =>
          (n, if truthy env n then Status.SET else Status.NOT_SET)),
        acc.2) := by
  induction l generalizing acc with
  | nil => simp
  | cons hd tl ih =>
    rw [List.foldl_cons, ih]
    by_cases hc : truthy env hd
    · simp [optionalStep, hc]
    · simp [optionalStep, hc]

/-- The `hasErrors` flag of a run is set exactly when some required name is
not truthy. -/
theorem checkEnvRun_flag (env : EnvMap) :
    (checkEnvRun env).2 = requiredEnvVars.any (fun n => !truthy env n) := by
  rw [checkEnvRun, optionalStep_foldl, requiredStep_foldl]
  simp

/-- The report of a run: required statuses then optional statuses, one per
name, in list order. -/
theorem checkEnvRun_report (env : EnvMap) :
    (checkEnvRun env).1 =
      requiredEnvVars.map (fun n =>
          (n, if truthy env n then Status.SET else Status.MISSING))
        ++ optionalEnvVars.map (fun n =>
          (n, if truthy env n then Status.SET else Status.NOT_SET)) := by
  rw [checkEnvRun, optionalStep_foldl, requiredStep_foldl]
  simp

/-- Two environments that agree on a list of names give the same `truthy`
answers there, hence the same `any` over that list. -/
theorem any_not_truthy_congr (env env2 : EnvMap) (l : List String)
    (h : ∀ n ∈ l, env n = env2 n) :
    l.any (fun n => !truthy env n) = l.any (fun n => !truthy env2 n) := by
  induction l with
  | nil => rfl
  | cons hd tl ih =>
    have hhd : truthy env hd = truthy env2 hd := by
      unfold truthy
      rw [h hd (by simp)]
    simp only [List.any_cons, hhd,
      ih (fun n hn => h n (by simp [hn]))]


/-! ## Claim theorems -/

/-- C1: for every environment mapping `env`, `validate(env).allOk` is true
iff every name in the required variable list (NODE_ENV,
NEXT_PUBLIC_APP_ENV, NEXT_PUBLIC_API_URL, DATABASE_URL, NEXTAUTH_SECRET,
NEXTAUTH_URL) maps to a non-empty string in `env`; an absent or empty
required variable makes `allOk` false. -/
theorem validate_allOk_iff_required_set (env : EnvMap) :
    (validate env).allOk = true ↔
      ∀ n ∈ requiredEnvVars, ∃ s, env n = some s ∧ s ≠ "" := by
  show (!(checkEnvRun env).2) = true ↔ _
  rw [checkEnvRun_flag]
  simp only [Bool.not_eq_true', List.any_eq_false, Bool.not_eq_true,
    Bool.not_eq_false]
  constructor
  · intro h n hn
    exact (truthy_iff env n).mp (by simpa using h n hn)
  · intro h n hn
    simpa using (truthy_iff env n).mpr (h n hn)

/-- C2: `resolve("production")` attaches exactly the four security header
pairs, in source order, and every non-production discriminator (including
the absent one) yields no security headers. -/
theorem resolve_securityHeaders_spec :
    (resolve (some "production")).securityHeaders =
        [ ("X-DNS-Prefetch-Control", "on"),
          ("Strict-Transport-Security",
            "max-age=63072000; includeSubDomains; preload"),
          ("X-Content-Type-Options", "nosniff"),
          ("X-Frame-Options", "DENY") ]
      ∧ ∀ x : Option String, x ≠ some "production" →
          (resolve x).securityHeaders = [] := by
  refine ⟨rfl, ?_⟩
  intro x hx
  simp [resolve, ResolvedConfiguration.securityHeaders, hx]

/-- Witness for C2 at the absent discriminator. -/
theorem resolve_securityHeaders_spec_witness :
    (resolve none).securityHeaders = [] :=
  resolve_securityHeaders_spec.2 none (by decide)

/-- C3: `resolve("production").outputMode` is `standalone`, and every
non-production discriminator (including the absent one) gives `standard`. -/
theorem resolve_outputMode_spec :
    (resolve (some "production")).outputMode = OutputMode.standalone
      ∧ ∀ x : Option String, x ≠ some "production" →
          (resolve x).outputMode = OutputMode.standard := by
  refine ⟨rfl, ?_⟩
  intro x hx
  simp [resolve, ResolvedConfiguration.outputMode, hx]

/-- Witness for C3 at the discriminator `staging`. -/
theorem resolve_outputMode_spec_witness :
    (resolve (some "staging")).outputMode = OutputMode.standard :=
  resolve_outputMode_spec.2 (some "staging") (by decide)

/-- C4: `resolve(d).imageDomains` is `yourapp.com, cdn.yourapp.com` when the
discriminator is `production` and `localhost` for every other discriminator
value, including the absent one. -/
theorem resolve_imageDomains_spec :
    (resolve (some "production")).imageDomains =
        ["yourapp.com", "cdn.yourapp.com"]
      ∧ ∀ x : Option String, x ≠ some "production" →
          (resolve x).imageDomains = ["localhost"] := by
  refine ⟨rfl, ?_⟩
  intro x hx
  simp [resolve, hx]

/-- Witness for C4 at the discriminator `development`. -/
theorem resolve_imageDomains_spec_witness :
    (resolve (some "development")).imageDomains = ["localhost"] :=
  resolve_imageDomains_spec.2 (some "development") (by decide)

/-- C5: the validator never short-circuits: for every environment the report
lists one entry per required name and per optional name, in declared order
with no duplicates, and an entry `(n, MISSING)` appears exactly for the
required names that are absent or empty. -/
theorem validate_report_spec (env : EnvMap) :
    (validate env).report =
        requiredEnvVars.map (fun n =>
            (n, if truthy env n then Status.SET else Status.MISSING))
          ++ optionalEnvVars.map (fun n =>
            (n, if truthy env n then Status.SET else Status.NOT_SET))
      ∧ (validate env).report.map Prod.fst = requiredEnvVars ++ optionalEnvVars
      ∧ (requiredEnvVars ++ optionalEnvVars).Nodup
      ∧ ∀ n : String, (n, Status.MISSING) ∈ (validate env).report ↔
          n ∈ requiredEnvVars ∧ truthy env n = false := by
  have hrep : (validate env).report =
      requiredEnvVars.map (fun n =>
          (n, if truthy env n then Status.SET else Status.MISSING))
        ++ optionalEnvVars.map (fun n =>
          (n, if truthy env n then Status.SET else Status.NOT_SET)) :=
    checkEnvRun_report env
  refine ⟨hrep, ?_, by decide, ?_⟩
  · rw [hrep]
    simp [List.map_map, Function.comp_def]
  · intro n
    rw [hrep]
    simp only [List.mem_append, List.mem_map]
    constructor
    · rintro (⟨a, ha, heq⟩ | ⟨a, ha, heq⟩)
      · rcases Prod.mk.injEq .. ▸ heq with ⟨rfl, hst⟩
        refine ⟨ha, ?_⟩
        by_cases hc : truthy env a
        · simp [hc] at hst
        · simpa using hc
      · rcases Prod.mk.injEq .. ▸ heq with ⟨rfl, hst⟩
        by_cases hc : truthy env a <;> simp [hc] at hst
    · rintro ⟨hn, hf⟩
      exact Or.inl ⟨n, hn, by simp [hf]⟩

/-- C6: the script exits with code 0 exactly when `validate(env).allOk`,
else 1, and environments that agree on the required names get the same exit
code, so optional variables never affect it. -/
theorem scriptExitCode_spec (env : EnvMap) :
    (scriptExitCode env = if (validate env).allOk = true then 0 else 1)
      ∧ ∀ env2 : EnvMap, (∀ n ∈ requiredEnvVars, env n = env2 n) →
          scriptExitCode env = scriptExitCode env2 := by
  constructor
  · show (if (checkEnvRun env).2 then 1 else 0) =
      if (!(checkEnvRun env).2) = true then 0 else 1
    cases h : (checkEnvRun env).2 <;> simp [h]
  · intro env2 hagree
    show (if (checkEnvRun env).2 then 1 else 0) =
      (if (checkEnvRun env2).2 then 1 else 0)
    rw [checkEnvRun_flag, checkEnvRun_flag,
      any_not_truthy_congr env env2 requiredEnvVars hagree]

/-- Witness for C6: adding an optional variable to the empty environment
leaves the exit code unchanged. -/
theorem scriptExitCode_spec_witness :
    scriptExitCode (fun _ => none) =
      scriptExitCode (fun n => if n = "LOG_LEVEL" then some "debug" else none) :=
  (scriptExitCode_spec (fun _ => none)).2
    (fun n => if n = "LOG_LEVEL" then some "debug" else none) (by decide)

/-- C7: `resolve` is a total function on string-or-absent discriminators,
and every input other than the exact string `production` (including the
absent discriminator) yields the same non-production configuration:
standard output mode, localhost image domain, no security headers. -/
theorem resolve_total_uniform (x : Option String) (hx : x ≠ some "production") :
    ((resolve x).outputMode, (resolve x).imageDomains,
        (resolve x).securityHeaders) =
      ((resolve none).outputMode, (resolve none).imageDomains,
        (resolve none).securityHeaders) := by
  simp [resolve, ResolvedConfiguration.outputMode,
    ResolvedConfiguration.securityHeaders, hx]

/-- Witness for C7 at the discriminator `staging`. -/
theorem resolve_total_uniform_witness :
    ((resolve (some "staging")).outputMode,
        (resolve (some "staging")).imageDomains,
        (resolve (some "staging")).securityHeaders) =
      ((resolve none).outputMode, (resolve none).imageDomains,
        (resolve none).securityHeaders) :=
  resolve_total_uniform (some "staging") (by decide)

/-- C8: `validate` and `resolve` are deterministic: equal inputs give equal
outputs, with no hidden state influencing the result (both are functions of
their argument alone). -/
theorem validate_resolve_deterministic :
    (∀ env env2 : EnvMap, env = env2 → validate env = validate env2)
      ∧ ∀ d d2 : Option String, d = d2 → resolve d = resolve d2 :=
  ⟨fun _ _ h => by rw [h], fun _ _ h => by rw [h]⟩

/-- Witness for C8: two invocations of `validate` on the same concrete
environment coincide. -/
theorem validate_resolve_deterministic_witness :
    validate (fun _ => none) = validate (fun _ => none) :=
  validate_resolve_deterministic.1 (fun _ => none) (fun _ => none) rfl

/-- C9: the discriminator comparison is exact and case-sensitive: every
string differing from the literal `production` (such as `Production`,
`PRODUCTION`, or `production` followed by a space) selects the
non-production branch for output mode, image domains, and security headers
alike. -/
theorem resolve_case_sensitive (s : String) (hs : s ≠ "production") :
    (resolve (some s)).outputMode = OutputMode.standard
      ∧ (resolve (some s)).imageDomains = ["localhost"]
      ∧ (resolve (some s)).securityHeaders = [] := by
  refine ⟨?_, ?_, ?_⟩ <;>
    simp [resolve, ResolvedConfiguration.outputMode,
      ResolvedConfiguration.securityHeaders, hs]

/-- Witness for C9 at the discriminator `Production` (capitalised). -/
theorem resolve_case_sensitive_witness :
    (resolve (some "Production")).outputMode = OutputMode.standard
      ∧ (resolve (some "Production")).imageDomains = ["localhost"]
      ∧ (resolve (some "Production")).securityHeaders = [] :=
  resolve_case_sensitive "Production" (by decide)

/-- C10: the resolved configuration exposes `APP_ENV` equal to the
discriminator when it is a non-empty string, and equal to the literal
`development` when the discriminator is absent or empty. -/
theorem resolve_appEnv_fallback :
    (∀ s : String, s ≠ "" → (resolve (some s)).appEnv = s)
      ∧ (resolve none).appEnv = "development"
      ∧ (resolve (some "")).appEnv = "development" := by
  refine ⟨?_, rfl, rfl⟩
  intro s hs
  simp [resolve, hs]

/-- Witness for C10: the discriminator `staging` is echoed in `APP_ENV`. -/
theorem resolve_appEnv_fallback_witness :
    (resolve (some "staging")).appEnv = "staging" :=
  resolve_appEnv_fallback.1 "staging" (by decide)
